import Mathlib

/-!
Verification of the population-game task-allocation engine
(MultiRobotTaskAlloc).  The Python sources are shallowly embedded:

* pure numeric code over machine floats is modelled over `ℚ` where the
  code is purely arithmetical (revision protocol, Poisson clock,
  population aggregation, message caching), and over `ℝ` where the code
  uses transcendental functions (`exp`, fractional powers) — the
  consumption model, the environment integrator and the payoff
  mechanism;
* Python `assert` / `raise` failure paths become `Except String`;
* Python dictionaries become association lists;
* calls into `np.random` are modelled by passing the sampled value as an
  explicit argument.
-/

namespace MRTA

/-! ### Configuration constants (src/shared/config.py, robot_controller.py) -/

namespace Config

def NUM_TASKS : ℕ := 4

/-- RHO = 1.0 / 600.0 (config.py line 18; robot_controller.py line 23). -/
def RHO : ℚ := 1 / 600

noncomputable def R_I : List ℝ := [3.44, 3.44, 3.44, 3.44]

noncomputable def ALPHA_I : List ℝ := [0.036, 0.036, 0.036, 0.036]

noncomputable def BETA_I : List ℝ := [0.91, 0.91, 0.91, 0.91]

end Config

/-! ### List helper lemmas shared by the developments below -/

theorem getD_map_range {α : Type} (n i : ℕ) (f : ℕ → α) (d : α) (h : i < n) :
    ((List.range n).map f).getD i d = f i := by
  rw [List.getD_eq_getElem?_getD, List.getElem?_map, List.getElem?_range h]
  rfl

theorem sum_map_mul_ite (r : ℚ) (c : ℕ) (m : ℕ → ℚ) (l : List ℕ) :
    (l.map fun j => if j = c then 0 else r * m j).sum
      = r * (l.map fun j => if j = c then 0 else m j).sum := by
  induction l with
  | nil => simp
  | cons a l ih =>
      by_cases ha : a = c <;> simp [ha, ih, mul_add]

/-! ### RevisionProtocol (src/models/revision_protocol.py)

`compute_switch_probabilities` fills `probs[j] = rho * [payoff_j -
payoff_current]_+` for `j ≠ current` (the `current` entry of the numpy
array is still 0 at that point), then overwrites `probs[current] =
1.0 - np.sum(probs)`, and finally asserts `np.isclose(np.sum(probs),
1.0)` (numpy defaults: `atol = 1e-8`, `rtol = 1e-5`) and
`np.all(probs >= 0)`.  A failing `assert` raises, which we model as
`Except.error` with the assertion's message prefix. -/

namespace RevisionProtocol

/-- Positive part `[x]_+ = max(0, value)` (revision_protocol.py line 19). -/
def positive_part (value : ℚ) : ℚ := max 0 value

/-- The loop of revision_protocol.py lines 40-45: the probability array
after the switch entries are filled and before the stay entry is set. -/
def switchArray (rho : ℚ) (current_task : ℕ) (payoffs : List ℚ) : List ℚ :=
  (List.range payoffs.length).map fun j =>
    if j = current_task then 0
    else rho * positive_part (payoffs.getD j 0 - payoffs.getD current_task 0)

/-- Tolerance of `np.isclose(a, b)` with numpy's default
`atol = 1e-8`, `rtol = 1e-5`. -/
def np_isclose (a b : ℚ) : Prop := |a - b| ≤ 1 / 100000000 + 1 / 100000 * |b|

instance (a b : ℚ) : Decidable (np_isclose a b) := by
  unfold np_isclose; infer_instance

/-- RevisionProtocol.compute_switch_probabilities (lines 23-56). -/
def compute_switch_probabilities (rho : ℚ) (current_task : ℕ)
    (payoffs : List ℚ) : Except String (List ℚ) :=
  let switch := switchArray rho current_task payoffs
  let probs := switch.set current_task (1 - switch.sum)
  if np_isclose probs.sum 1 then
    if ∀ p ∈ probs, 0 ≤ p then Except.ok probs
    else Except.error "Negative probabilities"
  else Except.error "Probabilities do not sum to 1"

end RevisionProtocol

/-! ### RobotController.revision_protocol (robot_controller.py lines 133-172)

The robot controller re-implements the revision protocol inline.  After
filling the switch probabilities (with `RHO = 1/600` and payoffs equal
to the cached `q`, since `NU = 0`), it NORMALIZES them by their total
whenever the total is positive, then computes the stay probability as
one minus the new total.  We embed the probability computation up to the
uniform random draw: the function returns the switch-probability list
(after the normalization step) together with the stay probability. -/

namespace RobotController

def revision_distribution (current_patch : ℕ) (q : List ℚ) : List ℚ × ℚ :=
  -- payoffs = [self.payoff(i) for i in range(NUM_PATCHES)] = q when NU = 0
  let payoffs := q
  let switch_probs := (List.range Config.NUM_TASKS).map fun i =>
    if i = current_patch then 0
    else Config.RHO * max 0 (payoffs.getD i 0 - payoffs.getD current_patch 0)
  let total := switch_probs.sum
  let switch_probs2 := if 0 < total then switch_probs.map fun p => p / total
    else switch_probs
  (switch_probs2, 1 - switch_probs2.sum)

end RobotController

/-! ### PoissonClock (src/controllers/robot_controller/poisson_clock.py)

The exponential sample drawn by `np.random.exponential(1.0 / lambda)` in
`_generate_next_tick` is passed in as the explicit argument `draw`. -/

structure PoissonClock where
  lambda_param : ℚ
  next_tick_time : ℚ
  total_ticks : ℕ

namespace PoissonClock

/-- PoissonClock._generate_next_tick (lines 20-24):
`self.next_tick_time += inter_arrival`. -/
def generate_next_tick (c : PoissonClock) (draw : ℚ) : PoissonClock :=
  { c with next_tick_time := c.next_tick_time + draw }

/-- PoissonClock.should_tick (lines 26-40); returns the boolean result
together with the clock state after the call. -/
def should_tick (c : PoissonClock) (current_time draw : ℚ) :
    Bool × PoissonClock :=
  if c.next_tick_time ≤ current_time then
    (true, generate_next_tick { c with total_ticks := c.total_ticks + 1 } draw)
  else (false, c)

/-- PoissonClock.reset (lines 42-45). -/
def reset (c : PoissonClock) (current_time draw : ℚ) : PoissonClock :=
  generate_next_tick { c with next_tick_time := current_time } draw

end PoissonClock

/-! ### StateManager (src/controllers/supervisor_controller/state_manager.py)

The Python dictionaries `robot_tasks : robot_id -> task_id` and
`robot_active : robot_id -> bool` become association lists. -/

structure StateManager where
  num_robots : ℕ
  num_tasks : ℕ
  robot_tasks : List (ℕ × ℕ)
  robot_active : List (ℕ × Bool)

namespace StateManager

/-- Dictionary lookup `self.robot_tasks.get(robot_id)` as used by the
membership test `robot_id in self.robot_tasks`. -/
def taskOf (s : StateManager) (robot_id : ℕ) : Option ℕ :=
  (s.robot_tasks.find? fun p => p.1 = robot_id).map fun p => p.2

/-- Dictionary lookup `self.robot_active.get(robot_id, True)`
(state_manager.py line 49). -/
def activeOf (s : StateManager) (robot_id : ℕ) : Bool :=
  ((s.robot_active.find? fun p => p.1 = robot_id).map fun p => p.2).getD true

/-- StateManager.update_robot_task (lines 27-30): only an existing key is
overwritten; an unknown robot_id leaves the dictionary untouched. -/
def update_robot_task (s : StateManager) (robot_id new_task : ℕ) :
    StateManager :=
  if (s.robot_tasks.find? fun p => p.1 = robot_id).isSome then
    { s with robot_tasks := s.robot_tasks.map fun p =>
        if p.1 = robot_id then (p.1, new_task) else p }
  else s

/-- The loop of get_population_state lines 48-51: `total_active` counts
the robots whose active flag (defaulting to True) is set. -/
def total_active (s : StateManager) : ℕ :=
  s.robot_tasks.countP fun p => s.activeOf p.1

/-- The per-task counter `task_counts[i]` accumulated by the same loop. -/
def task_count (s : StateManager) (i : ℕ) : ℕ :=
  s.robot_tasks.countP fun p => s.activeOf p.1 && p.2 == i

/-- StateManager.get_population_state (lines 36-59). -/
def get_population_state (s : StateManager) : List ℚ :=
  if s.total_active = 0 then
    List.replicate s.num_tasks ((1 : ℚ) / s.num_tasks)
  else
    (List.range s.num_tasks).map fun i =>
      (s.task_count i : ℚ) / (s.total_active : ℚ)

end StateManager

/-! ### RobotController.receive_state_info (robot_controller.py lines 174-201)

The agent drains its receiver queue in arrival order.  A packet of
exactly 9 floats overwrites the cached `(q, x)` with its first 4 and
next 4 entries; any other packet (and any exception) only logs a
warning and leaves the cache untouched. -/

namespace RobotController

def receive_step (cache : List ℚ × List ℚ) (floats : List ℚ) :
    List ℚ × List ℚ :=
  if floats.length = 9 then (floats.take 4, (floats.drop 4).take 4)
  else cache

def receive_state_info (cache : List ℚ × List ℚ) (queue : List (List ℚ)) :
    List ℚ × List ℚ :=
  queue.foldl receive_step cache

end RobotController

/-! ### Messages (src/shared/communication.py, src/shared/constants.py)

`Message.to_bytes` serializes `{'type': self.type.value, 'data':
self.data}` with `json.dumps(...).encode('utf-8')` and `from_bytes`
parses it back with `json.loads`.  The json library round-trips JSON
values losslessly (Python floats are printed with `repr`, which
`float(...)` inverts exactly), so serialization is embedded at the level
of the JSON value tree `JVal`; numbers carry `ℚ`.

The module, however, never loads as shipped: its import statements bind
only `json`, `struct`, `Dict`, `Any` and `MessageType`, yet the
signature of `SupervisorBroadcast.create_state_message` (line 33) uses
`List[float]` (and `RobotReport.create_status_message`, line 54, uses
`Tuple`).  Python evaluates parameter annotations eagerly when the
`def` statement executes inside the class body, so importing
shared.communication raises NameError before `SupervisorBroadcast` (or
anything after it) is bound; `import_communication` below models this
import-time name resolution.  The constructor embeddings that follow
therefore describe the functions as written, which the program as
shipped never actually defines. -/

inductive JVal : Type where
  | num : ℚ → JVal
  | str : String → JVal
  | arr : List JVal → JVal
  | obj : List (String × JVal) → JVal

/-- MessageType (constants.py lines 15-19). -/
inductive MessageType : Type where
  | state_update
  | task_change
  | robot_status
deriving DecidableEq

namespace MessageType

/-- The `.value` of each enum member. -/
def value : MessageType → String
  | state_update => "state_update"
  | task_change => "task_change"
  | robot_status => "robot_status"

/-- The enum call `MessageType(s)`, which raises ValueError (here:
`none`) when `s` is not one of the member values. -/
def ofValue (s : String) : Option MessageType :=
  if s = "state_update" then some state_update
  else if s = "task_change" then some task_change
  else if s = "robot_status" then some robot_status
  else none

end MessageType

structure Message where
  type : MessageType
  data : JVal

namespace Message

/-- Message.to_bytes (communication.py lines 15-21), at the JSON-value
level. -/
def to_bytes (m : Message) : JVal :=
  JVal.obj [("type", JVal.str m.type.value), ("data", m.data)]

/-- Lookup `msg_dict[key]`; a missing key raises KeyError (here: `none`). -/
def dictGet (fields : List (String × JVal)) (key : String) : Option JVal :=
  (fields.find? fun p => p.1 = key).map fun p => p.2

/-- Message.from_bytes (communication.py lines 23-28); json.loads
failures, KeyError and ValueError all surface as `none`. -/
def from_bytes (j : JVal) : Option Message :=
  match j with
  | JVal.obj fields => do
      let tval ← dictGet fields "type"
      let tstr ← match tval with | JVal.str s => some s | _ => none
      let tag ← MessageType.ofValue tstr
      let d ← dictGet fields "data"
      some ⟨tag, d⟩
  | _ => none

end Message

/-- Names bound at communication.py module level when the
SupervisorBroadcast class body starts executing: the four imports of
lines 4-7 and the Message class of line 9. -/
def communication_global_names : List String :=
  ["json", "struct", "Dict", "Any", "MessageType", "Message"]

/-- Python builtin names reachable from annotation expressions in this
module (annotation lookup falls back to builtins after module
globals). -/
def python_builtin_names : List String :=
  ["float", "int", "bool", "str", "bytes"]

/-- Name resolution for an annotation expression evaluated at class-body
execution time in communication.py. -/
def communication_resolves (name : String) : Bool :=
  communication_global_names.contains name || python_builtin_names.contains name

/-- The names referenced by the parameter and return annotations of
create_state_message (communication.py line 33-34), in evaluation
order: `q: List[float], x: List[float], time: float -> Message`. -/
def create_state_message_annotations : List String :=
  ["List", "float", "List", "float", "float", "Message"]

/-- Importing shared.communication executes the class bodies; the def
statement for create_state_message evaluates its annotations eagerly
and raises NameError at the first unresolvable name. -/
def import_communication : Except String Unit :=
  match create_state_message_annotations.find?
      (fun n => !communication_resolves n) with
  | some n => Except.error ("NameError: name " ++ n ++ " is not defined")
  | none => Except.ok ()

/-- SupervisorBroadcast.create_state_message as written at
communication.py lines 32-39 — a binding the program as shipped never
creates, because the module import raises NameError first (see
import_communication). -/
def create_state_message (q x : List ℚ) (time : ℚ) : Message :=
  ⟨MessageType.state_update,
    JVal.obj [("q", JVal.arr (q.map JVal.num)),
              ("x", JVal.arr (x.map JVal.num)),
              ("time", JVal.num time)]⟩

/-- RobotReport.create_task_change_message as written at
communication.py lines 43-50 — also never bound in the program as
shipped, since the module import dies at line 33 before the RobotReport
class is created. -/
def create_task_change_message (robot_id old_task new_task : ℤ) : Message :=
  ⟨MessageType.task_change,
    JVal.obj [("robot_id", JVal.num robot_id),
              ("old_task", JVal.num old_task),
              ("new_task", JVal.num new_task)]⟩

/-! ### ConsumptionModel (src/models/consumption_model.py)

`compute_consumption` is real-analytic (`np.exp`, `np.power` with a
fractional exponent), so it is embedded over `ℝ`; `x ^ b` below is
`Real.rpow`, which agrees with `np.power` on the positive base the
guard guarantees.  The constructor reads `Config.R_I`, `Config.ALPHA_I`
and `Config.BETA_I`. -/

namespace ConsumptionModel

open Classical in
/-- ConsumptionModel.compute_consumption (lines 17-42). -/
noncomputable def compute_consumption (task_id : ℕ) (q_i x_i : ℝ) : ℝ :=
  if x_i ≤ 0 then 0
  else
    let exp_term := Real.exp (Config.ALPHA_I.getD task_id 0 * q_i)
    let tanh_term := (exp_term - 1) / (exp_term + 1)
    let power_term := x_i ^ (Config.BETA_I.getD task_id 0)
    Config.R_I.getD task_id 0 * tanh_term * power_term

/-- ConsumptionModel.compute_all_consumption (lines 44-48). -/
noncomputable def compute_all_consumption (q x : List ℝ) : List ℝ :=
  (List.range q.length).map fun i =>
    compute_consumption i (q.getD i 0) (x.getD i 0)

end ConsumptionModel

/-! ### EnvironmentModel (src/controllers/supervisor_controller/environment_model.py)

`update` runs the numpy element-wise statements
`self.q += (self.w - F) * dt` and `self.q = np.maximum(self.q, 0)`. -/

structure EnvironmentModel where
  q : List ℝ
  w : List ℝ

namespace EnvironmentModel

/-- EnvironmentModel.update (lines 19-37).  The function is total: the
source performs no validation of `dt` (or of anything else) and has no
raise path. -/
noncomputable def update (m : EnvironmentModel) (x : List ℝ) (dt : ℝ) :
    EnvironmentModel :=
  let F := ConsumptionModel.compute_all_consumption m.q x
  { m with q := ((List.range m.q.length).map fun i =>
      max (m.q.getD i 0 + (m.w.getD i 0 - F.getD i 0) * dt) 0) }

end EnvironmentModel

/-! ### PayoffMechanism (src/models/payoff_mechanism.py) -/

structure PayoffMechanism where
  nu : ℝ
  gamma_star : Option ℝ
  x_star : Option (List ℝ)

namespace PayoffMechanism

open Classical in
/-- PayoffMechanism.compute_payoff (lines 24-50); the ValueError raised
when the equilibrium is unset becomes `Except.error`. -/
noncomputable def compute_payoff (m : PayoffMechanism) (task_id : ℕ)
    (q x w : List ℝ) : Except String ℝ :=
  if m.nu = 0 then Except.ok (q.getD task_id 0)
  else
    match m.gamma_star, m.x_star with
    | some g, some _ =>
        let F_equilibrium :=
          ConsumptionModel.compute_consumption task_id g (x.getD task_id 0)
        Except.ok (q.getD task_id 0 + m.nu * (-F_equilibrium + w.getD task_id 0))
    | _, _ => Except.error "Equilibrium not set for model-based payoff"

end PayoffMechanism

/-! ### Supporting lemmas -/

theorem sum_set_getD (l : List ℚ) (i : ℕ) (a : ℚ) (h : i < l.length) :
    (l.set i a).sum = l.sum - l.getD i 0 + a := by
  induction l generalizing i with
  | nil => simp at h
  | cons b t ih =>
      cases i with
      | zero => simp [List.getD]; ring
      | succ n =>
          have hn : n < t.length := Nat.lt_of_succ_lt_succ h
          simp only [List.set, List.sum_cons, ih n hn, List.getD_cons_succ]
          ring

theorem sum_map_range (n : ℕ) (f : ℕ → ℚ) :
    ((List.range n).map f).sum = ∑ j in Finset.range n, f j := by
  induction n with
  | zero => simp
  | succ n ih => simp [List.range_succ, Finset.sum_range_succ, ih]

theorem switchArray_sum (rho : ℚ) (current_task : ℕ) (payoffs : List ℚ)
    (hcur : current_task < payoffs.length) :
    (RevisionProtocol.switchArray rho current_task payoffs).sum
      = rho * ∑ j in Finset.range payoffs.length \ {current_task},
          max 0 (payoffs.getD j 0 - payoffs.getD current_task 0) := by
  rw [RevisionProtocol.switchArray, sum_map_range, Finset.mul_sum,
    Finset.sum_eq_sum_diff_singleton_add (Finset.mem_range.mpr hcur)]
  rw [if_pos rfl, add_zero]
  refine Finset.sum_congr rfl fun j hj => ?_
  rw [if_neg (Finset.not_mem_singleton.mp (Finset.mem_sdiff.mp hj).2),
    RevisionProtocol.positive_part]

theorem switchArray_length (rho : ℚ) (current_task : ℕ) (payoffs : List ℚ) :
    (RevisionProtocol.switchArray rho current_task payoffs).length
      = payoffs.length := by
  simp [RevisionProtocol.switchArray]

theorem switchArray_getD (rho : ℚ) (current_task j : ℕ) (payoffs : List ℚ)
    (hj : j < payoffs.length) :
    (RevisionProtocol.switchArray rho current_task payoffs).getD j 0
      = if j = current_task then 0
        else rho * max 0 (payoffs.getD j 0 - payoffs.getD current_task 0) := by
  rw [RevisionProtocol.switchArray, getD_map_range _ _ _ _ hj,
    RevisionProtocol.positive_part]

theorem switchArray_nonneg (rho : ℚ) (current_task : ℕ) (payoffs : List ℚ)
    (hrho : 0 ≤ rho) :
    ∀ v ∈ RevisionProtocol.switchArray rho current_task payoffs, 0 ≤ v := by
  intro v hv
  obtain ⟨j, _, rfl⟩ := List.mem_map.mp hv
  split
  · exact le_refl 0
  · exact mul_nonneg hrho (le_max_left 0 _)

/-! ### Claim theorems -/

/-- C1: for every payoff vector, every in-range current task, and every
rho ≥ 0 with rho times the total positive payoff advantage at most 1,
compute_switch_probabilities returns a vector p with
p_j = rho * max(0, payoff_j - payoff_current) for j ≠ current,
p_current = 1 minus the sum of the other entries, all entries
non-negative, and total sum 1 (hence within 1e-9 of 1). -/
theorem compute_switch_probabilities_spec (rho : ℚ) (current_task : ℕ)
    (payoffs : List ℚ) (hcur : current_task < payoffs.length) (hrho : 0 ≤ rho)
    (hsmall : rho * ∑ j in Finset.range payoffs.length \ {current_task},
        max 0 (payoffs.getD j 0 - payoffs.getD current_task 0) ≤ 1) :
    ∃ p, RevisionProtocol.compute_switch_probabilities rho current_task payoffs
        = Except.ok p ∧
      p.length = payoffs.length ∧
      (∀ j, j < payoffs.length → j ≠ current_task →
        p.getD j 0 = rho * max 0 (payoffs.getD j 0 - payoffs.getD current_task 0)) ∧
      p.getD current_task 0
        = 1 - ∑ j in Finset.range payoffs.length \ {current_task}, p.getD j 0 ∧
      (∀ v ∈ p, 0 ≤ v) ∧
      p.sum = 1 ∧ |p.sum - 1| ≤ 1 / 1000000000 := by
  set switch := RevisionProtocol.switchArray rho current_task payoffs with hsw
  set p := switch.set current_task (1 - switch.sum) with hp
  have hclen : current_task < switch.length := by
    rw [switchArray_length]; exact hcur
  have hswc : switch.getD current_task 0 = 0 := by
    rw [hsw, switchArray_getD _ _ _ _ hcur, if_pos rfl]
  have hpsum : p.sum = 1 := by
    rw [hp, sum_set_getD _ _ _ hclen, hswc]
    ring
  have hplen : p.length = payoffs.length := by
    rw [hp, List.length_set, switchArray_length]
  have hpj : ∀ j, j < payoffs.length → j ≠ current_task →
      p.getD j 0 = rho * max 0 (payoffs.getD j 0 - payoffs.getD current_task 0) := by
    intro j hj hne
    rw [hp, List.getD_eq_getElem?_getD,
      List.getElem?_set_ne (fun h => hne h.symm), ← List.getD_eq_getElem?_getD,
      switchArray_getD _ _ _ _ hj, if_neg hne]
  have hpc : p.getD current_task 0 = 1 - switch.sum := by
    rw [hp, List.getD_eq_getElem?_getD, List.getElem?_set_eq_of_lt _ hclen]
    rfl
  have hothers : ∑ j in Finset.range payoffs.length \ {current_task}, p.getD j 0
      = switch.sum := by
    rw [hsw, switchArray_sum _ _ _ hcur, Finset.mul_sum]
    refine Finset.sum_congr rfl fun j hj => ?_
    obtain ⟨hjr, hjne⟩ := Finset.mem_sdiff.mp hj
    rw [hpj j (Finset.mem_range.mp hjr) (Finset.not_mem_singleton.mp hjne)]
  have hstay : 0 ≤ 1 - switch.sum := by
    rw [hsw, switchArray_sum _ _ _ hcur]
    linarith
  have hnonneg : ∀ v ∈ p, 0 ≤ v := by
    intro v hv
    rcases List.mem_or_eq_of_mem_set hv with h | rfl
    · exact switchArray_nonneg rho current_task payoffs hrho v h
    · exact hstay
  refine ⟨p, ?_, hplen, hpj, by rw [hpc, hothers], hnonneg, hpsum, by
    rw [hpsum]; norm_num⟩
  rw [RevisionProtocol.compute_switch_probabilities]
  rw [if_pos (by rw [← hsw, ← hp, hpsum, RevisionProtocol.np_isclose]; norm_num)]
  rw [if_pos (by rw [← hsw, ← hp]; exact hnonneg)]

/-- C3: at payoffs [700, 0, 0, 0] with current task 1 and rho = 1/600 the
Equation (7) stay probability is negative.  models/RevisionProtocol
fails fast (the assert raises, surfaced to the caller), but the inline
reimplementation in RobotController.revision_protocol silently
renormalizes the switch probabilities (to [1, 0, 0, 0], stay
probability 0) and returns a draw, never surfacing an error —
contradicting the claim, the spec, and the module's own Equation (7)
docstring. -/
theorem revision_negative_stay_code_bug :
    1 - (RevisionProtocol.switchArray Config.RHO 1 [700, 0, 0, 0]).sum < 0 ∧
    RevisionProtocol.compute_switch_probabilities Config.RHO 1 [700, 0, 0, 0]
      = Except.error "Negative probabilities" ∧
    RobotController.revision_distribution 1 [700, 0, 0, 0]
      = ([1, 0, 0, 0], 0) := by
  refine ⟨?_, ?_, ?_⟩
  · norm_num [RevisionProtocol.switchArray, RevisionProtocol.positive_part,
      Config.RHO, List.range_succ]
  · norm_num [RevisionProtocol.compute_switch_probabilities,
      RevisionProtocol.switchArray, RevisionProtocol.np_isclose,
      RevisionProtocol.positive_part, Config.RHO, List.range_succ]
  · norm_num [RobotController.revision_distribution, Config.RHO,
      Config.NUM_TASKS, List.range_succ]

/-- Entry i of the resource vector after EnvironmentModel.update, for a
task index in range: the clamped explicit Euler step. -/
theorem update_q_getD (m : EnvironmentModel) (x : List ℝ) (dt : ℝ) (i : ℕ)
    (hi : i < m.q.length) :
    (m.update x dt).q.getD i 0
      = max (m.q.getD i 0 + (m.w.getD i 0 -
          ConsumptionModel.compute_consumption i (m.q.getD i 0) (x.getD i 0)) * dt)
          0 := by
  show ((List.range m.q.length).map fun j =>
      max (m.q.getD j 0 + (m.w.getD j 0 -
        (ConsumptionModel.compute_all_consumption m.q x).getD j 0) * dt) 0).getD
        i 0 = _
  rw [getD_map_range _ _ _ _ hi, ConsumptionModel.compute_all_consumption,
    getD_map_range _ _ _ _ hi]

/-- C2: for every population vector x, growth-rate vector w and dt > 0,
each updated resource level is non-negative and equals
max(0, q_i + (w_i - F(i, q_i, x_i)) * dt). -/
theorem environment_update_spec (m : EnvironmentModel) (x : List ℝ) (dt : ℝ)
    (_hdt : 0 < dt) (i : ℕ) (hi : i < m.q.length) :
    0 ≤ (m.update x dt).q.getD i 0 ∧
    (m.update x dt).q.getD i 0
      = max 0 (m.q.getD i 0 + (m.w.getD i 0 -
          ConsumptionModel.compute_consumption i (m.q.getD i 0) (x.getD i 0)) * dt) := by
  have key := update_q_getD m x dt i hi
  exact ⟨key ▸ le_max_right _ 0, key.trans (max_comm _ 0)⟩

/-- C2 witness: the spec scenario R = 3.44, alpha = 0.036, beta = 0.91,
w = 0.5, q0 = 0, x = 1, dt = 1 yields an updated resource level 0.5. -/
theorem environment_update_spec_witness :
    ((⟨[0, 0, 0, 0], [0.5, 0.5, 0.5, 0.5]⟩ : EnvironmentModel).update
        [1, 1, 1, 1] 1).q.getD 0 0 = 0.5 := by
  have h := (environment_update_spec ⟨[0, 0, 0, 0], [0.5, 0.5, 0.5, 0.5]⟩
    [1, 1, 1, 1] 1 (by norm_num) 0 (by norm_num)).2
  rw [h, ConsumptionModel.compute_consumption]
  rw [if_neg (by norm_num : ¬ (([1, 1, 1, 1] : List ℝ).getD 0 0 ≤ 0))]
  norm_num [Config.ALPHA_I, Config.R_I, Real.exp_zero]

/-- C5 (amended): EnvironmentModel.update performs no validation of dt:
for dt ≤ 0 it performs the very same clamped Euler step as for positive
dt, raising no error and possibly changing q. -/
theorem environment_update_nonpositive_dt (m : EnvironmentModel)
    (x : List ℝ) (dt : ℝ) (_hdt : dt ≤ 0) (i : ℕ) (hi : i < m.q.length) :
    (m.update x dt).q.getD i 0
      = max 0 (m.q.getD i 0 + (m.w.getD i 0 -
          ConsumptionModel.compute_consumption i (m.q.getD i 0) (x.getD i 0)) * dt) :=
  (update_q_getD m x dt i hi).trans (max_comm _ 0)

/-- C5 witness: at dt = 0 the update still computes the Euler step. -/
theorem environment_update_nonpositive_dt_witness :
    ((⟨[2], [1]⟩ : EnvironmentModel).update [0] 0).q.getD 0 0 = 2 := by
  have h := environment_update_nonpositive_dt ⟨[2], [1]⟩ [0] 0 (le_refl 0) 0
    (by norm_num)
  rw [h]
  norm_num

/-- C5 counterexample: with dt = -1 (non-positive), update on q = [1],
w = [1], x = [0] returns normally and changes q to [0]; the call is
neither rejected nor left without effect, refuting the claim that a
non-positive dt raises an error and leaves q unchanged. -/
theorem environment_update_negative_dt_counterexample :
    ((⟨[1], [1]⟩ : EnvironmentModel).update [0] (-1)).q = [0] ∧
    ([(0 : ℝ)] ≠ [1]) := by
  constructor
  · show ((List.range 1).map fun j =>
      max (([(1 : ℝ)].getD j 0 + ([(1 : ℝ)].getD j 0 -
        (ConsumptionModel.compute_all_consumption [1] [0]).getD j 0) * (-1)) )
        0) = [0]
    rw [ConsumptionModel.compute_all_consumption]
    norm_num [List.range_succ, ConsumptionModel.compute_consumption]
  · intro h
    have := List.head_eq_of_cons_eq h
    norm_num at this

/-- C4: with a nonzero payoff weight nu, compute_payoff fails with the
InvalidState error whenever no equilibrium pair is set (never falling
back to the model-free payoff), and with the equilibrium set it returns
q_i + nu * (-F(i, gamma_star, x_i) + w_i). -/
theorem compute_payoff_spec (m : PayoffMechanism) (task_id : ℕ)
    (q x w : List ℝ) (hnu : m.nu ≠ 0) :
    ((m.gamma_star = none ∨ m.x_star = none) →
      m.compute_payoff task_id q x w
        = Except.error "Equilibrium not set for model-based payoff") ∧
    (∀ g xs, m.gamma_star = some g → m.x_star = some xs →
      m.compute_payoff task_id q x w
        = Except.ok (q.getD task_id 0 + m.nu *
            (-(ConsumptionModel.compute_consumption task_id g (x.getD task_id 0))
              + w.getD task_id 0))) := by
  constructor
  · intro hcase
    rw [PayoffMechanism.compute_payoff, if_neg hnu]
    rcases hcase with h | h
    · rw [h]
    · rw [h]
      cases m.gamma_star <;> rfl
  · intro g xs hg hxs
    rw [PayoffMechanism.compute_payoff, if_neg hnu, hg, hxs]

/-- C4 witness: with nu = 40, the unset-equilibrium call errors, and
with gamma_star = 0, the model-based payoff at q = [1], x = [1],
w = [0.5] evaluates to 1 + 40 * 0.5 = 21. -/
theorem compute_payoff_spec_witness :
    PayoffMechanism.compute_payoff ⟨40, none, none⟩ 0 [1] [1] [0.5]
      = Except.error "Equilibrium not set for model-based payoff" ∧
    PayoffMechanism.compute_payoff ⟨40, some 0, some [1]⟩ 0 [1] [1] [0.5]
      = Except.ok 21 := by
  constructor
  · exact (compute_payoff_spec ⟨40, none, none⟩ 0 [1] [1] [0.5]
      (by norm_num)).1 (Or.inl rfl)
  · have h := (compute_payoff_spec ⟨40, some 0, some [1]⟩ 0 [1] [1] [0.5]
      (by norm_num)).2 0 [1] rfl rfl
    rw [h, ConsumptionModel.compute_consumption]
    rw [if_neg (by norm_num : ¬ (([1] : List ℝ).getD 0 0 ≤ 0))]
    norm_num [Config.ALPHA_I, Config.R_I, Real.exp_zero]

/-- Partition of the active-robot count over the per-task buckets: when
every active robot's task index is in range, the per-task counts sum to
the total active count. -/
theorem sum_countP_eq (l : List (ℕ × ℕ)) (act : ℕ → Bool) (M : ℕ)
    (h : ∀ p ∈ l, act p.1 = true → p.2 < M) :
    ∑ i in Finset.range M, l.countP (fun p => act p.1 && p.2 == i)
      = l.countP (fun p => act p.1) := by
  induction l with
  | nil => simp
  | cons a t ih =>
      simp only [List.countP_cons]
      rw [Finset.sum_add_distrib,
        ih fun p hp hact => h p (List.mem_cons_of_mem a hp) hact]
      congr 1
      by_cases ha : act a.1 = true
      · simp only [ha, Bool.true_and, beq_iff_eq, if_true]
        rw [Finset.sum_ite_eq]
        simp [Finset.mem_range.mpr (h a (List.mem_cons_self a t) ha)]
      · simp [ha]

/-- C6: whenever the per-robot task indices of active robots are in
range (as in every reachable aggregator state) and there is at least
one task, the population state has one entry per task, all entries
non-negative summing to 1, each entry is the active count on that task
divided by the total active count, and with zero active robots the
uniform vector 1/M is returned rather than an error. -/
theorem get_population_state_spec (s : StateManager) (hM : 0 < s.num_tasks)
    (htasks : ∀ p ∈ s.robot_tasks, s.activeOf p.1 = true → p.2 < s.num_tasks) :
    s.get_population_state.length = s.num_tasks ∧
    (∀ v ∈ s.get_population_state, 0 ≤ v) ∧
    s.get_population_state.sum = 1 ∧
    (s.total_active = 0 →
      s.get_population_state
        = List.replicate s.num_tasks ((1 : ℚ) / s.num_tasks)) ∧
    (0 < s.total_active → ∀ i, i < s.num_tasks →
      s.get_population_state.getD i 0
        = (s.task_count i : ℚ) / (s.total_active : ℚ)) := by
  have hMQ : ((s.num_tasks : ℚ)) ≠ 0 := Nat.cast_ne_zero.mpr hM.ne'
  by_cases h0 : s.total_active = 0
  · rw [StateManager.get_population_state, if_pos h0]
    refine ⟨List.length_replicate _ _, ?_, ?_, fun _ => rfl, fun ht => absurd h0 ht.ne'⟩
    · intro v hv
      rw [List.eq_of_mem_replicate hv]
      positivity
    · rw [List.sum_replicate, nsmul_eq_mul, mul_one_div, div_self hMQ]
  · have hTQ : ((s.total_active : ℚ)) ≠ 0 := Nat.cast_ne_zero.mpr h0
    rw [StateManager.get_population_state, if_neg h0]
    refine ⟨by simp, ?_, ?_, fun ht => absurd ht h0, ?_⟩
    · intro v hv
      obtain ⟨j, -, rfl⟩ := List.mem_map.mp hv
      positivity
    · rw [sum_map_range, ← Finset.sum_div]
      rw [← Nat.cast_sum]
      simp only [StateManager.task_count, StateManager.total_active]
      rw [sum_countP_eq _ _ _ htasks]
      exact div_self hTQ
    · intro _ i hi
      rw [getD_map_range _ _ _ _ hi]

/-- C6 witness: the all-inactive scenario with M = 4 tasks returns the
uniform vector [0.25, 0.25, 0.25, 0.25] and it sums to 1. -/
theorem get_population_state_spec_witness :
    (⟨4, 4, [(0, 0), (1, 1), (2, 2), (3, 3)],
        [(0, false), (1, false), (2, false), (3, false)]⟩ :
      StateManager).get_population_state = [1/4, 1/4, 1/4, 1/4] ∧
    (⟨4, 4, [(0, 0), (1, 1), (2, 2), (3, 3)],
        [(0, false), (1, false), (2, false), (3, false)]⟩ :
      StateManager).get_population_state.sum = 1 := by
  have h := get_population_state_spec
    ⟨4, 4, [(0, 0), (1, 1), (2, 2), (3, 3)],
      [(0, false), (1, false), (2, false), (3, false)]⟩
    (by norm_num) (by decide)
  refine ⟨?_, h.2.2.1⟩
  rw [h.2.2.2.1 (by decide)]
  norm_num [List.replicate]

/-- C7 (amended): should_tick(t) returns true iff t >= nextTickTime; at
most one tick fires per call; on a fire the clock adds one fresh
exponential draw to the OLD nextTickTime (the missed deadline), so the
new nextTickTime is oldNextTickTime + draw — not pollTime + draw; a
non-firing call leaves the clock unchanged. -/
theorem should_tick_spec (c : PoissonClock) (t draw : ℚ) :
    ((c.should_tick t draw).1 = true ↔ c.next_tick_time ≤ t) ∧
    (c.next_tick_time ≤ t →
      (c.should_tick t draw).2.next_tick_time = c.next_tick_time + draw ∧
      (c.should_tick t draw).2.total_ticks = c.total_ticks + 1) ∧
    (¬ c.next_tick_time ≤ t → (c.should_tick t draw).2 = c) := by
  rw [PoissonClock.should_tick]
  by_cases h : c.next_tick_time ≤ t <;>
    simp [h, PoissonClock.generate_next_tick]

/-- C7 witness: a clock with nextTickTime 1 polled at time 10 fires and
advances its nextTickTime by the fresh draw 2. -/
theorem should_tick_spec_witness :
    ((⟨8, 1, 0⟩ : PoissonClock).should_tick 10 2).1 = true ∧
    ((⟨8, 1, 0⟩ : PoissonClock).should_tick 10 2).2.next_tick_time = 1 + 2 := by
  have h := should_tick_spec ⟨8, 1, 0⟩ 10 2
  exact ⟨h.1.mpr (by norm_num), (h.2.1 (by norm_num)).1⟩

/-- C7 counterexample: for the same poll, the resampled nextTickTime is
3 = missed deadline 1 + draw 2, not 12 = poll time 10 + draw 2 — the
clock does NOT resynchronize forward from the poll time as claimed. -/
theorem should_tick_counterexample :
    ((⟨8, 1, 0⟩ : PoissonClock).should_tick 10 2).2.next_tick_time = 3 ∧
    ((3 : ℚ) ≠ 10 + 2) := by
  constructor
  · norm_num [PoissonClock.should_tick, PoissonClock.generate_next_tick]
  · norm_num

/-- C8: after draining a queue of broadcasts in arrival order, the
cached (q, x) equals the content (first 4 floats, next 4 floats) of the
most recent well-formed (length-9) message, with earlier broadcasts
discarded unmerged; if no drained message is well-formed the cache
keeps its last-known-good value, and the drain never fails. -/
theorem receive_state_info_spec (cache : List ℚ × List ℚ)
    (queue : List (List ℚ)) :
    RobotController.receive_state_info cache queue
      = match queue.reverse.find? (fun m => m.length == 9) with
        | some m => (m.take 4, (m.drop 4).take 4)
        | none => cache := by
  induction queue generalizing cache with
  | nil => rfl
  | cons m rest ih =>
      rw [RobotController.receive_state_info, List.foldl_cons,
        ← RobotController.receive_state_info, ih, List.reverse_cons,
        List.find?_append]
      cases hfind : rest.reverse.find? (fun m => m.length == 9) with
      | some v => simp
      | none =>
          rw [Option.none_or]
          by_cases h : m.length = 9
          · have hb : (m.length == 9) = true := by simpa using h
            simp [RobotController.receive_step, List.find?, h, hb]
          · have hb : (m.length == 9) = false := by simpa using h
            simp [RobotController.receive_step, List.find?, h, hb]

/-- C9: the round-trip claim names a code bug.  Importing
shared/communication.py raises NameError (the List annotation at line
33 is evaluated eagerly but typing.List is never imported), so Message,
SupervisorBroadcast and RobotReport are never defined and no wire
message can be constructed, serialized or deserialized by the program
as shipped (first conjunct).  The serialization logic as written is
itself sound — had the module loaded, both wire kinds would round-trip
losslessly with type tag and data fields preserved (remaining
conjuncts), which is exactly the behavior the spec intends. -/
theorem message_roundtrip_code_bug :
    import_communication
      = Except.error "NameError: name List is not defined" ∧
    (∀ q x time, Message.from_bytes
        (Message.to_bytes (create_state_message q x time))
      = some (create_state_message q x time)) ∧
    (∀ robot_id old_task new_task, Message.from_bytes (Message.to_bytes
        (create_task_change_message robot_id old_task new_task))
      = some (create_task_change_message robot_id old_task new_task)) :=
  ⟨rfl, fun _ _ _ => rfl, fun _ _ _ => rfl⟩

/-- Overwriting one key of an association list commutes with key
lookup. -/
theorem find?_overwrite (l : List (ℕ × ℕ)) (rid nt r : ℕ) :
    ((l.map fun p => if p.1 = rid then (p.1, nt) else p).find?
        fun p => p.1 = r)
      = (l.find? fun p => p.1 = r).map
          fun p => if p.1 = rid then (p.1, nt) else p := by
  rw [List.find?_map]
  have hq : ((fun p : ℕ × ℕ => decide (p.1 = r)) ∘
      fun p : ℕ × ℕ => if p.1 = rid then (p.1, nt) else p)
        = fun p : ℕ × ℕ => decide (p.1 = r) := by
    funext p
    by_cases hp : p.1 = rid <;> simp [Function.comp, hp]
  rw [hq]

/-- C10: update_robot_task for an unknown robot_id leaves the entire
aggregator state unchanged; for a known robot_id only that robot's
assignment is overwritten — all other fields, the active map, and every
other robot's assignment are untouched. -/
theorem update_robot_task_spec (s : StateManager) (robot_id new_task : ℕ) :
    (s.taskOf robot_id = none → s.update_robot_task robot_id new_task = s) ∧
    ((s.update_robot_task robot_id new_task).num_robots = s.num_robots ∧
      (s.update_robot_task robot_id new_task).num_tasks = s.num_tasks ∧
      (s.update_robot_task robot_id new_task).robot_active = s.robot_active) ∧
    (∀ r, r ≠ robot_id →
      (s.update_robot_task robot_id new_task).taskOf r = s.taskOf r) ∧
    (s.taskOf robot_id ≠ none →
      (s.update_robot_task robot_id new_task).taskOf robot_id
        = some new_task) := by
  refine ⟨?_, ?_, ?_, ?_⟩
  · intro h
    have hnone : (s.robot_tasks.find? fun p => p.1 = robot_id) = none := by
      rw [StateManager.taskOf] at h
      exact Option.map_eq_none'.mp h
    rw [StateManager.update_robot_task, hnone]
    rfl
  · rw [StateManager.update_robot_task]
    split <;> exact ⟨rfl, rfl, rfl⟩
  · intro r hr
    rw [StateManager.update_robot_task]
    split
    · simp only [StateManager.taskOf, find?_overwrite]
      cases hf : s.robot_tasks.find? fun p => p.1 = r with
      | none => rfl
      | some e =>
          have he : e.1 = r := by simpa using List.find?_some hf
          simp [he, hr]
    · rfl
  · intro h
    have hs : (s.robot_tasks.find? fun p => p.1 = robot_id).isSome := by
      rw [StateManager.taskOf] at h
      cases hf : s.robot_tasks.find? fun p => p.1 = robot_id with
      | none => rw [hf] at h; simp at h
      | some e => rfl
    rw [StateManager.update_robot_task, if_pos hs]
    obtain ⟨e, hf⟩ := Option.isSome_iff_exists.mp hs
    have he : e.1 = robot_id := by simpa using List.find?_some hf
    simp only [StateManager.taskOf, find?_overwrite, hf]
    simp [he]

/-- C10 witness: updating an unknown robot id 5 leaves the state alone,
and updating known robot id 1 overwrites exactly its assignment. -/
theorem update_robot_task_spec_witness :
    StateManager.update_robot_task
        ⟨2, 4, [(0, 2), (1, 3)], [(0, true), (1, true)]⟩ 5 0
      = ⟨2, 4, [(0, 2), (1, 3)], [(0, true), (1, true)]⟩ ∧
    (StateManager.update_robot_task
        ⟨2, 4, [(0, 2), (1, 3)], [(0, true), (1, true)]⟩ 1 0).taskOf 1
      = some 0 := by
  constructor
  · exact (update_robot_task_spec
      ⟨2, 4, [(0, 2), (1, 3)], [(0, true), (1, true)]⟩ 5 0).1 (by decide)
  · exact (update_robot_task_spec
      ⟨2, 4, [(0, 2), (1, 3)], [(0, true), (1, true)]⟩ 1 0).2.2.2 (by decide)

/-- C1 witness: the spec scenario rho = 0.1, payoffs = [5, 1], current
task 1 satisfies the hypotheses and yields a valid distribution. -/
theorem compute_switch_probabilities_spec_witness :
    ∃ p, RevisionProtocol.compute_switch_probabilities (1/10) 1 [5, 1]
        = Except.ok p ∧ p.sum = 1 := by
  obtain ⟨p, hok, -, -, -, -, hsum, -⟩ :=
    compute_switch_probabilities_spec (1/10) 1 [5, 1] (by norm_num) (by norm_num)
      (by
        have h : Finset.range ([(5 : ℚ), 1].length) \ {1} = {0} := by decide
        rw [h, Finset.sum_singleton]
        norm_num)
  exact ⟨p, hok, hsum⟩

end MRTA
